import Mathlib

/-!
Shallow embedding of scripts/check_modules.py, the installer and launcher
script of this repository.  The script has two phases: a dependency
reconciler (update_modules) that compares installed package versions against
a pinned manifest and shells out to pip, and a launcher (get_config,
launch_uvicorn) that loads a config file and derives network bind
parameters.

External effects (the installed-package state, the behaviour of a pip
subprocess, the GPU device list, the file system, and the YAML and JSON
parsers) are modelled as oracle parameters carried in an Env structure or
passed as functions.  Exact pip command strings and plain log lines that no
control flow depends on are not tracked; every control flow decision of the
source is.
-/

namespace CheckModules

/-- A Python value as it appears in the parsed config mapping.  Only the
shapes the launcher touches are modelled: booleans, integers and strings. -/
inductive PyVal
  | bool (b : Bool)
  | int (n : Int)
  | str (s : String)
deriving DecidableEq

/-- Python equality on these values.  In Python, bool is a subtype of int,
so True == 1 and False == 0 hold; values of unrelated types compare
unequal. -/
def pyEq : PyVal → PyVal → Bool
  | .bool a, .bool b => a == b
  | .bool a, .int n => (if a then (1 : Int) else 0) == n
  | .int n, .bool a => n == (if a then (1 : Int) else 0)
  | .int m, .int n => m == n
  | .str s, .str t => s == t
  | _, _ => false

/-- The recognized `net` section of the config mapping:
`{listen_port, listen_to_network, bind_ip}`, each key optional. -/
structure NetConfig where
  listen_port : Option PyVal
  listen_to_network : Option PyVal
  bind_ip : Option PyVal
deriving DecidableEq

/-- The config mapping returned by get_config.  `net := none` models both
the empty dict `{}` and a dict without a `net` key. -/
structure Config where
  net : Option NetConfig
deriving DecidableEq

/-- The file system locations the launcher touches.  `none` means the file
does not exist.  `installStatus` is the content of
scripts/install_status.txt, the empty string standing for a missing file
(append mode creates it). -/
structure FS where
  legacyYaml : Option String
  canonicalYaml : Option String
  configJson : Option String
  installStatus : String
deriving DecidableEq

/-- Result of a parser applied to file content: `.error` models a raised
exception, `.ok none` models a parse that yields Python None (for example
yaml.load of an empty file), `.ok (some c)` models a parsed mapping. -/
abbrev ParseFun := String → Except Unit (Option Config)

structure GetConfigResult where
  config : Config
  fs : FS
  stderrLogged : Bool
deriving DecidableEq

/-- get_config (source lines 151-179).  The legacy path
scripts/config.yaml, if present, is moved onto the canonical path
config.yaml (shutil.move onto an existing file replaces it, so after the
move the canonical path holds the legacy content).  Then the canonical
yaml is parsed if present, else scripts/config.json; a parser exception is
printed to stderr and leaves config as None, and a None config is replaced
by the empty mapping. -/
def get_config (pyYaml pyJson : ParseFun) (fs : FS) : GetConfigResult :=
  let fs1 : FS :=
    match fs.legacyYaml with
    | some l => { fs with legacyYaml := none, canonicalYaml := some l }
    | none => fs
  match fs1.canonicalYaml with
  | some s =>
    match pyYaml s with
    | .error _ => { config := { net := none }, fs := fs1, stderrLogged := true }
    | .ok none => { config := { net := none }, fs := fs1, stderrLogged := false }
    | .ok (some c) => { config := c, fs := fs1, stderrLogged := false }
  | none =>
    match fs1.configJson with
    | some s =>
      match pyJson s with
      | .error _ => { config := { net := none }, fs := fs1, stderrLogged := true }
      | .ok none => { config := { net := none }, fs := fs1, stderrLogged := false }
      | .ok (some c) => { config := c, fs := fs1, stderrLogged := false }
    | none => { config := { net := none }, fs := fs1, stderrLogged := false }

/-- The yaml content that get_config ends up looking at: the legacy file
content if the legacy path exists (the move puts it at the canonical path),
otherwise the canonical file content. -/
def yamlSource (fs : FS) : Option String :=
  match fs.legacyYaml with
  | some l => some l
  | none => fs.canonicalYaml

/-- The derived network bind parameters. -/
structure BindParams where
  bind_ip : PyVal
  listen_port : PyVal
deriving DecidableEq

/-- The documented defaults: loopback address, port 9000. -/
def defaultBind : BindParams :=
  { bind_ip := .str "127.0.0.1", listen_port := .int 9000 }

/-- Bind parameter derivation (source lines 206-218): defaults 127.0.0.1
and 9000; a `net` section may override listen_port unconditionally, and the
bind address is overridden only when listen_to_network == True, to bind_ip
when present and to 0.0.0.0 otherwise. -/
def deriveBindParams (config : Config) : BindParams :=
  match config.net with
  | none => defaultBind
  | some net =>
    { listen_port :=
        match net.listen_port with
        | some v => v
        | none => .int 9000
      bind_ip :=
        match net.listen_to_network with
        | some v =>
          if pyEq v (.bool true) then
            match net.bind_ip with
            | some b => b
            | none => .str "0.0.0.0"
          else .str "127.0.0.1"
        | none => .str "127.0.0.1" }

/-- The condition of source line 213: a `net` section exists, it has a
listen_to_network key, and that value == True in the Python sense. -/
def listenEnabled (config : Config) : Bool :=
  match config.net with
  | none => false
  | some net =>
    match net.listen_to_network with
    | none => false
    | some v => pyEq v (.bool true)

/-- The two checkpoint lines written to scripts/install_status.txt. -/
def checkpointLines : String := "sd_weights_downloaded\n" ++ "sd_install_complete\n"

structure LaunchResult where
  config : Config
  fs : FS
  bind : BindParams
  stderrLogged : Bool
deriving DecidableEq

/-- launch_uvicorn (source lines 181-229) up to the blocking uvicorn.run
call: load the config, append the two checkpoint lines to
scripts/install_status.txt, and derive the bind parameters handed to
uvicorn.run.  Environment variable exports and log prints do not affect
any modelled state. -/
def launch_uvicorn (pyYaml pyJson : ParseFun) (fs : FS) : LaunchResult :=
  let gc := get_config pyYaml pyJson fs
  { config := gc.config
    fs := { gc.fs with installStatus := gc.fs.installStatus ++ checkpointLines }
    bind := deriveBindParams gc.config
    stderrLogged := gc.stderrLogged }

/-! ### The dependency reconciler -/

/-- A manifest value: the source dict maps each module to a version
string; get_allowed_versions also accepts a tuple of versions. -/
inductive VersionSpec
  | str (s : String)
  | tup (l : List String)
deriving DecidableEq

/-- modules_to_check (source lines 18-29), in dict insertion order. -/
def modules_to_check : List (String × VersionSpec) :=
  [("rich", .str "12.6.0"),
   ("fastapi", .str "0.115.6"),
   ("ruamel.yaml", .str "0.17.21"),
   ("sqlalchemy", .str "2.0.19"),
   ("wandb", .str "0.17.2"),
   ("torchsde", .str "0.2.6"),
   ("basicsr", .str "1.4.2"),
   ("gfpgan", .str "1.3.8")]

/-- get_allowed_versions (source lines 133-136): a lone string becomes a
one-element tuple; the latest version is the last element.  (Indexing [-1]
of an empty tuple would raise in Python; the manifest never contains one,
so that case is given a default.) -/
def get_allowed_versions (_module_name : String) (allowed : VersionSpec) :
    List String × String :=
  match allowed with
  | .str s => ([s], s)
  | .tup l => (l, l.getLastD "")

/-- The test of source line 87: `version(module_name) not in
allowed_versions`.  An absent package (None) is never in a list of
strings. -/
def requires_install (allowed : List String) : Option String → Bool
  | none => true
  | some v => !(allowed.contains v)

/-- Observable events of a reconciliation run. -/
inductive Event
  | considered (m : String)
  | skipEditable (m : String)
  | install (m v : String)
  | warnMismatch (m v : String)
  | printRemediation (m : String)
  | torchInstall (forced : Bool)
deriving DecidableEq

def isInstallEvent : Event → Bool
  | .install _ _ => true
  | .torchInstall _ => true
  | _ => false

inductive Outcome
  | completed
  | failedExit1 (m : String)
deriving DecidableEq

structure LoopResult where
  events : List Event
  outcome : Outcome
  finalState : String → Option String

/-- Outcome of one os.system pip invocation, as decided by the external
world: whether the Python call raises, the subprocess exit status (which
the source discards), and the full installed-package state afterwards. -/
structure InstallOutcome where
  raises : Bool
  exitStatus : Nat
  newState : String → Option String

/-- The external world: the installed-package state at process start,
which src/<name> directories exist, what each pip install invocation does,
the state after a torchruntime.install call, the GPU device names, and the
Python interpreter version. -/
structure Env where
  installedVersion : String → Option String
  localSrcExists : String → Bool
  installBehavior : String → String → InstallOutcome
  stateAfterTorchInstall : String → Option String
  stateAfterTorchUpgrade : String → Option String
  deviceNames : List String
  pythonVersion : List Nat

/-- Splitting a character list on dots, keeping empty parts, exactly as
the Python str.split does on a one-character separator. -/
def splitOnDot : List Char → List (List Char)
  | [] => [[]]
  | c :: rest =>
    if c == '.' then [] :: splitOnDot rest
    else
      match splitOnDot rest with
      | [] => [[c]]
      | p :: ps => (c :: p) :: ps

def digitsVal (acc : Nat) : List Char → Option Nat
  | [] => some acc
  | c :: rest =>
    if c.isDigit then digitsVal (acc * 10 + (c.toNat - 48)) rest else none

/-- Python int() on a string of characters: the value when every character
is a digit, none (a ValueError) on an empty or non-numeric string. -/
def parseIntChars : List Char → Option Nat
  | [] => none
  | c :: rest => digitsVal 0 (c :: rest)

/-- version_str_to_tuple (source lines 126-130): drop everything from the
first plus sign, remove every character that is not a digit or a dot,
split on dots, convert each part with int().  `none` models the ValueError
int() raises on an empty part. -/
def version_str_to_tuple (ver_str : String) : Option (List Nat) :=
  let s0 := ver_str.data.takeWhile (fun c => c != '+')
  let s1 := s0.filter (fun c => c.isDigit || c == '.')
  (splitOnDot s1).mapM parseIntChars

/-- Python tuple comparison on int tuples: lexicographic, a proper
initial segment being smaller. -/
def pyTupleLt : List Nat → List Nat → Bool
  | [], [] => false
  | [], _ :: _ => true
  | _ :: _, [] => false
  | a :: as, b :: bs => if a < b then true else if b < a then false else pyTupleLt as bs

/-- Word characters of the regex metacharacter backslash-b (ASCII scope,
which covers GPU device names). -/
def isWordChar (c : Char) : Bool := c.isAlphanum || c == '_'

def blackwellTokens : List (List Char) :=
  [String.toList "5060", String.toList "5070", String.toList "5080", String.toList "5090"]

def listStartsWith : List Char → List Char → Bool
  | [], _ => true
  | _ :: _, [] => false
  | a :: as, b :: bs => a == b && listStartsWith as bs

/-- Does one of the Blackwell tokens match at the current position, with a
word boundary on each side?  `prev` is the character before the position,
none at the start of the string. -/
def blackwellHitAt (prev : Option Char) (cs : List Char) : Bool :=
  blackwellTokens.any fun tok =>
    listStartsWith tok cs &&
    (match prev with
     | none => true
     | some c => !isWordChar c) &&
    (match cs.drop tok.length with
     | [] => true
     | c :: _ => !isWordChar c)

def blackwellSearchAux (prev : Option Char) : List Char → Bool
  | [] => false
  | c :: rest => blackwellHitAt prev (c :: rest) || blackwellSearchAux (some c) rest

/-- BLACKWELL_DEVICES.search (source line 32): the regex
backslash-b(?:5060|5070|5080|5090)backslash-b matches somewhere in the
device name. -/
def blackwellSearch (s : String) : Bool := blackwellSearchAux none s.data

/-- What the torch block of update_modules (source lines 57-78) decides. -/
inductive TorchPhase
  | noAction
  | installedFresh
  | upgraded
  | earlyExit0
  | uncaughtError
deriving DecidableEq

/-- The torch block (source lines 57-78): install torch fresh when absent;
otherwise, when the version parses below (2, 7) or carries no plus suffix
(CPU build), probe the GPUs, and on a Blackwell device either stop the
process (Python below 3.9, sys.exit() with status 0) or force-upgrade
torch.  A version string int() cannot parse raises out of the script
(uncaught, process status 1).  The second component is the
installed-package state the manifest loop then starts from. -/
def torch_phase (env : Env) : TorchPhase × (String → Option String) :=
  match env.installedVersion "torch" with
  | none => (.installedFresh, env.stateAfterTorchInstall)
  | some ts =>
    match version_str_to_tuple ts with
    | none => (.uncaughtError, env.installedVersion)
    | some tv =>
      if pyTupleLt tv [2, 7] || !(ts.data.contains '+') then
        if env.deviceNames.any (fun d => blackwellSearch d) then
          if pyTupleLt env.pythonVersion [3, 9] then
            (.earlyExit0, env.installedVersion)
          else
            (.upgraded, env.stateAfterTorchUpgrade)
        else (.noAction, env.installedVersion)
      else (.noAction, env.installedVersion)

/-- The manifest loop of update_modules (source lines 80-99).  For each
entry in order: a src/<name> directory skips the entry; otherwise, when
the installed version is not among the allowed ones, pip is invoked.  A
raised exception prints a traceback, prints the remediation message and
exits with status 1 (fail, lines 138-147); otherwise the freshly queried
version is compared with the target and a warning is printed on mismatch,
and the loop continues. -/
def updateLoop (env : Env) : List (String × VersionSpec) → (String → Option String) → LoopResult
  | [], st => { events := [], outcome := .completed, finalState := st }
  | (m, spec) :: rest, st =>
    if env.localSrcExists m then
      { events := Event.considered m :: Event.skipEditable m :: (updateLoop env rest st).events
        outcome := (updateLoop env rest st).outcome
        finalState := (updateLoop env rest st).finalState }
    else
      if requires_install (get_allowed_versions m spec).1 (st m) then
        if (env.installBehavior m (get_allowed_versions m spec).2).raises then
          { events := [Event.considered m,
                       Event.install m (get_allowed_versions m spec).2,
                       Event.printRemediation m]
            outcome := .failedExit1 m
            finalState := st }
        else
          if (env.installBehavior m (get_allowed_versions m spec).2).newState m
              = some (get_allowed_versions m spec).2 then
            { events := Event.considered m ::
                Event.install m (get_allowed_versions m spec).2 ::
                (updateLoop env rest
                  (env.installBehavior m (get_allowed_versions m spec).2).newState).events
              outcome :=
                (updateLoop env rest
                  (env.installBehavior m (get_allowed_versions m spec).2).newState).outcome
              finalState :=
                (updateLoop env rest
                  (env.installBehavior m (get_allowed_versions m spec).2).newState).finalState }
          else
            { events := Event.considered m ::
                Event.install m (get_allowed_versions m spec).2 ::
                Event.warnMismatch m (get_allowed_versions m spec).2 ::
                (updateLoop env rest
                  (env.installBehavior m (get_allowed_versions m spec).2).newState).events
              outcome :=
                (updateLoop env rest
                  (env.installBehavior m (get_allowed_versions m spec).2).newState).outcome
              finalState :=
                (updateLoop env rest
                  (env.installBehavior m (get_allowed_versions m spec).2).newState).finalState }
      else
        { events := Event.considered m :: (updateLoop env rest st).events
          outcome := (updateLoop env rest st).outcome
          finalState := (updateLoop env rest st).finalState }

inductive UMOutcome
  | completed
  | failedExit1 (m : String)
  | earlyExit0
  | uncaughtExit1
deriving DecidableEq

structure UMResult where
  events : List Event
  outcome : UMOutcome
  finalState : String → Option String

def torchEvents : TorchPhase → List Event
  | .installedFresh => [Event.torchInstall false]
  | .upgraded => [Event.torchInstall true]
  | _ => []

def liftOutcome : Outcome → UMOutcome
  | .completed => .completed
  | .failedExit1 m => .failedExit1 m

/-- update_modules (source lines 53-106): the torch block, then the
manifest loop.  The closing modules_to_log loop only prints. -/
def update_modules (env : Env) : UMResult :=
  match torch_phase env with
  | (.earlyExit0, st) => { events := [], outcome := .earlyExit0, finalState := st }
  | (.uncaughtError, st) => { events := [], outcome := .uncaughtExit1, finalState := st }
  | (tp, st) =>
    { events := torchEvents tp ++ (updateLoop env modules_to_check st).events
      outcome := liftOutcome (updateLoop env modules_to_check st).outcome
      finalState := (updateLoop env modules_to_check st).finalState }

/-- The whole process (source lines 231-234): update_modules always runs;
fail exits with status 1, the Blackwell sys.exit() path exits with status
0, an uncaught exception makes the interpreter exit with status 1, and
with the launch flag a completed reconciliation hands over to
launch_uvicorn (the process then lives inside uvicorn.run); without the
flag the script falls off the end with status 0. -/
inductive ProcResult
  | exited (code : Nat)
  | serving (launch : LaunchResult)
deriving DecidableEq

def runProcess (env : Env) (pyYaml pyJson : ParseFun) (fs : FS) (launchFlag : Bool) :
    ProcResult :=
  match (update_modules env).outcome with
  | .failedExit1 _ => .exited 1
  | .earlyExit0 => .exited 0
  | .uncaughtExit1 => .exited 1
  | .completed =>
    if launchFlag then .serving (launch_uvicorn pyYaml pyJson fs) else .exited 0

/-- The first element of the manifest strictly after the entry named m. -/
def nextName : List (String × VersionSpec) → String → Option String
  | [], _ => none
  | (n, _) :: rest, m => if n = m then (rest.head?.map Prod.fst) else nextName rest m

/-- The pinned version of a manifest value, matching the membership test
requires_install performs against it. -/
def versionSpecPin : VersionSpec → Option String
  | .str s => some s
  | .tup l => l.getLast?

/-! ### Concrete environments used as witnesses and counterexamples -/

/-- Every package absent; every pip invocation returns exit status 1
(failure) without raising, and installs nothing. -/
def envPipFail : Env :=
  { installedVersion := fun _ => none
    localSrcExists := fun _ => false
    installBehavior := fun _ _ =>
      { raises := false, exitStatus := 1, newState := fun _ => none }
    stateAfterTorchInstall := fun _ => none
    stateAfterTorchUpgrade := fun _ => none
    deviceNames := []
    pythonVersion := [3, 12, 0] }

/-- Every package absent; the pip invocation for rich raises. -/
def envRaise : Env :=
  { installedVersion := fun _ => none
    localSrcExists := fun _ => false
    installBehavior := fun m _ =>
      { raises := m == "rich", exitStatus := 1, newState := fun _ => none }
    stateAfterTorchInstall := fun _ => none
    stateAfterTorchUpgrade := fun _ => none
    deviceNames := []
    pythonVersion := [3, 12, 0] }

/-- An environment that already satisfies the whole manifest, with a
current CUDA torch. -/
def envSat : Env :=
  { installedVersion := fun n =>
      if n == "torch" then some "2.7.0+cu118"
      else (List.lookup n modules_to_check).bind versionSpecPin
    localSrcExists := fun _ => false
    installBehavior := fun _ v =>
      { raises := false, exitStatus := 0, newState := fun _ => some v }
    stateAfterTorchInstall := fun _ => none
    stateAfterTorchUpgrade := fun _ => none
    deviceNames := []
    pythonVersion := [3, 12, 0] }

/-- A src/rich developer checkout, rich absent from the environment. -/
def envEditable : Env :=
  { installedVersion := fun _ => none
    localSrcExists := fun n => n == "rich"
    installBehavior := fun _ v =>
      { raises := false, exitStatus := 0, newState := fun _ => some v }
    stateAfterTorchInstall := fun _ => none
    stateAfterTorchUpgrade := fun _ => none
    deviceNames := []
    pythonVersion := [3, 12, 0] }

/-- A parser that always fails. -/
def parseNever : ParseFun := fun _ => .error ()

/-- An empty file system. -/
def fsEmpty : FS :=
  { legacyYaml := none, canonicalYaml := none, configJson := none, installStatus := "" }

/-- Both config files exist with distinct contents. -/
def fsBoth : FS :=
  { legacyYaml := some "L", canonicalYaml := some "C", configJson := none,
    installStatus := "" }

def configOfLegacy : Config :=
  { net := some { listen_port := some (.int 1111)
                  listen_to_network := none
                  bind_ip := none } }

def configOfCanonical : Config :=
  { net := some { listen_port := some (.int 2222)
                  listen_to_network := none
                  bind_ip := none } }

/-- A yaml parser distinguishing the two file contents of fsBoth. -/
def parseBoth : ParseFun := fun s =>
  if s = "L" then .ok (some configOfLegacy)
  else if s = "C" then .ok (some configOfCanonical)
  else .error ()

/-- The config of claim C6. -/
def config6 : Config :=
  { net := some { listen_port := some (.int 8080)
                  listen_to_network := some (.bool true)
                  bind_ip := none } }

/-- A file system whose canonical config parses to config6. -/
def fs6 : FS :=
  { legacyYaml := none, canonicalYaml := some "net", configJson := none,
    installStatus := "" }

def parse6 : ParseFun := fun s =>
  if s = "net" then .ok (some config6) else .error ()

/-- The config of the C10 witness: network listening off, bind_ip set. -/
def config10 : Config :=
  { net := some { listen_port := none
                  listen_to_network := some (.bool false)
                  bind_ip := some (.str "1.2.3.4") } }

/-- A file system with a prior install_status content. -/
def fsPrior : FS :=
  { legacyYaml := none, canonicalYaml := none, configJson := none,
    installStatus := "sd_installed\n" }

/-- A file system whose only config file has unparseable content. -/
def fsC5 : FS :=
  { legacyYaml := none, canonicalYaml := some "bad", configJson := none,
    installStatus := "" }

/-! ### Branch equations for the manifest loop -/

theorem updateLoop_cons_src (env : Env) (n : String) (spec : VersionSpec)
    (rest : List (String × VersionSpec)) (st : String → Option String)
    (hs : env.localSrcExists n = true) :
    updateLoop env ((n, spec) :: rest) st =
      { events := Event.considered n :: Event.skipEditable n :: (updateLoop env rest st).events
        outcome := (updateLoop env rest st).outcome
        finalState := (updateLoop env rest st).finalState } := by
  simp [updateLoop, hs]

theorem updateLoop_cons_ok (env : Env) (n : String) (spec : VersionSpec)
    (rest : List (String × VersionSpec)) (st : String → Option String)
    (hs : env.localSrcExists n = false)
    (hreq : requires_install (get_allowed_versions n spec).1 (st n) = false) :
    updateLoop env ((n, spec) :: rest) st =
      { events := Event.considered n :: (updateLoop env rest st).events
        outcome := (updateLoop env rest st).outcome
        finalState := (updateLoop env rest st).finalState } := by
  simp [updateLoop, hs, hreq]

theorem updateLoop_cons_raise (env : Env) (n : String) (spec : VersionSpec)
    (rest : List (String × VersionSpec)) (st : String → Option String)
    (hs : env.localSrcExists n = false)
    (hreq : requires_install (get_allowed_versions n spec).1 (st n) = true)
    (hr : (env.installBehavior n (get_allowed_versions n spec).2).raises = true) :
    updateLoop env ((n, spec) :: rest) st =
      { events := [Event.considered n,
                   Event.install n (get_allowed_versions n spec).2,
                   Event.printRemediation n]
        outcome := .failedExit1 n
        finalState := st } := by
  simp [updateLoop, hs, hreq, hr]

theorem updateLoop_cons_install_match (env : Env) (n : String) (spec : VersionSpec)
    (rest : List (String × VersionSpec)) (st : String → Option String)
    (hs : env.localSrcExists n = false)
    (hreq : requires_install (get_allowed_versions n spec).1 (st n) = true)
    (hr : (env.installBehavior n (get_allowed_versions n spec).2).raises = false)
    (hw : (env.installBehavior n (get_allowed_versions n spec).2).newState n
        = some (get_allowed_versions n spec).2) :
    updateLoop env ((n, spec) :: rest) st =
      { events := Event.considered n ::
          Event.install n (get_allowed_versions n spec).2 ::
          (updateLoop env rest
            (env.installBehavior n (get_allowed_versions n spec).2).newState).events
        outcome :=
          (updateLoop env rest
            (env.installBehavior n (get_allowed_versions n spec).2).newState).outcome
        finalState :=
          (updateLoop env rest
            (env.installBehavior n (get_allowed_versions n spec).2).newState).finalState } := by
  simp [updateLoop, hs, hreq, hr, hw]

theorem updateLoop_cons_install_warn (env : Env) (n : String) (spec : VersionSpec)
    (rest : List (String × VersionSpec)) (st : String → Option String)
    (hs : env.localSrcExists n = false)
    (hreq : requires_install (get_allowed_versions n spec).1 (st n) = true)
    (hr : (env.installBehavior n (get_allowed_versions n spec).2).raises = false)
    (hw : ¬((env.installBehavior n (get_allowed_versions n spec).2).newState n
        = some (get_allowed_versions n spec).2)) :
    updateLoop env ((n, spec) :: rest) st =
      { events := Event.considered n ::
          Event.install n (get_allowed_versions n spec).2 ::
          Event.warnMismatch n (get_allowed_versions n spec).2 ::
          (updateLoop env rest
            (env.installBehavior n (get_allowed_versions n spec).2).newState).events
        outcome :=
          (updateLoop env rest
            (env.installBehavior n (get_allowed_versions n spec).2).newState).outcome
        finalState :=
          (updateLoop env rest
            (env.installBehavior n (get_allowed_versions n spec).2).newState).finalState } := by
  simp [updateLoop, hs, hreq, hr, hw]

/-! ### Structural lemmas about the manifest loop -/

/-- Every install event names a module of the manifest being processed. -/
theorem updateLoop_install_mem (env : Env) (man : List (String × VersionSpec))
    (st : String → Option String) (m v : String)
    (h : Event.install m v ∈ (updateLoop env man st).events) :
    m ∈ man.map Prod.fst := by
  induction man generalizing st with
  | nil => simp [updateLoop] at h
  | cons p rest ih =>
    obtain ⟨n, spec⟩ := p
    cases hs : env.localSrcExists n with
    | true =>
      rw [updateLoop_cons_src env n spec rest st hs] at h
      simp at h
      simpa using Or.inr (ih st h)
    | false =>
      cases hreq : requires_install (get_allowed_versions n spec).1 (st n) with
      | false =>
        rw [updateLoop_cons_ok env n spec rest st hs hreq] at h
        simp at h
        simpa using Or.inr (ih st h)
      | true =>
        cases hr : (env.installBehavior n (get_allowed_versions n spec).2).raises with
        | true =>
          rw [updateLoop_cons_raise env n spec rest st hs hreq hr] at h
          simp at h
          obtain ⟨rfl, rfl⟩ := h
          simp
        | false =>
          by_cases hw : (env.installBehavior n (get_allowed_versions n spec).2).newState n
              = some (get_allowed_versions n spec).2
          · rw [updateLoop_cons_install_match env n spec rest st hs hreq hr hw] at h
            simp at h
            rcases h with ⟨rfl, rfl⟩ | h
            · simp
            · simpa using
                Or.inr (ih (env.installBehavior n (get_allowed_versions n spec).2).newState h)
          · rw [updateLoop_cons_install_warn env n spec rest st hs hreq hr hw] at h
            simp at h
            rcases h with ⟨rfl, rfl⟩ | h
            · simp
            · simpa using
                Or.inr (ih (env.installBehavior n (get_allowed_versions n spec).2).newState h)

/-- A failed outcome names a module of the manifest being processed. -/
theorem updateLoop_failed_mem (env : Env) (man : List (String × VersionSpec))
    (st : String → Option String) (k : String)
    (h : (updateLoop env man st).outcome = .failedExit1 k) :
    k ∈ man.map Prod.fst := by
  induction man generalizing st with
  | nil => simp [updateLoop] at h
  | cons p rest ih =>
    obtain ⟨n, spec⟩ := p
    cases hs : env.localSrcExists n with
    | true =>
      rw [updateLoop_cons_src env n spec rest st hs] at h
      simpa using Or.inr (ih st h)
    | false =>
      cases hreq : requires_install (get_allowed_versions n spec).1 (st n) with
      | false =>
        rw [updateLoop_cons_ok env n spec rest st hs hreq] at h
        simpa using Or.inr (ih st h)
      | true =>
        cases hr : (env.installBehavior n (get_allowed_versions n spec).2).raises with
        | true =>
          rw [updateLoop_cons_raise env n spec rest st hs hreq hr] at h
          simp at h
          simp [h]
        | false =>
          by_cases hw : (env.installBehavior n (get_allowed_versions n spec).2).newState n
              = some (get_allowed_versions n spec).2
          · rw [updateLoop_cons_install_match env n spec rest st hs hreq hr hw] at h
            simpa using
              Or.inr (ih (env.installBehavior n (get_allowed_versions n spec).2).newState h)
          · rw [updateLoop_cons_install_warn env n spec rest st hs hreq hr hw] at h
            simpa using
              Or.inr (ih (env.installBehavior n (get_allowed_versions n spec).2).newState h)

/-- The loop emits a considered event for the entry at the head of the
manifest, whatever branch it then takes. -/
theorem updateLoop_considered_head (env : Env) (n : String) (spec : VersionSpec)
    (rest : List (String × VersionSpec)) (st : String → Option String) :
    Event.considered n ∈ (updateLoop env ((n, spec) :: rest) st).events := by
  cases hs : env.localSrcExists n with
  | true => rw [updateLoop_cons_src env n spec rest st hs]; simp
  | false =>
    cases hreq : requires_install (get_allowed_versions n spec).1 (st n) with
    | false => rw [updateLoop_cons_ok env n spec rest st hs hreq]; simp
    | true =>
      cases hr : (env.installBehavior n (get_allowed_versions n spec).2).raises with
      | true => rw [updateLoop_cons_raise env n spec rest st hs hreq hr]; simp
      | false =>
        by_cases hw : (env.installBehavior n (get_allowed_versions n spec).2).newState n
            = some (get_allowed_versions n spec).2
        · rw [updateLoop_cons_install_match env n spec rest st hs hreq hr hw]; simp
        · rw [updateLoop_cons_install_warn env n spec rest st hs hreq hr hw]; simp

/-- An install event is only ever emitted for a module without a local
src/<name> checkout. -/
theorem updateLoop_install_not_editable (env : Env) (man : List (String × VersionSpec))
    (st : String → Option String) (m v : String)
    (h : Event.install m v ∈ (updateLoop env man st).events) :
    env.localSrcExists m = false := by
  induction man generalizing st with
  | nil => simp [updateLoop] at h
  | cons p rest ih =>
    obtain ⟨n, spec⟩ := p
    cases hs : env.localSrcExists n with
    | true =>
      rw [updateLoop_cons_src env n spec rest st hs] at h
      simp at h
      exact ih st h
    | false =>
      cases hreq : requires_install (get_allowed_versions n spec).1 (st n) with
      | false =>
        rw [updateLoop_cons_ok env n spec rest st hs hreq] at h
        simp at h
        exact ih st h
      | true =>
        cases hr : (env.installBehavior n (get_allowed_versions n spec).2).raises with
        | true =>
          rw [updateLoop_cons_raise env n spec rest st hs hreq hr] at h
          simp at h
          obtain ⟨rfl, rfl⟩ := h
          exact hs
        | false =>
          by_cases hw : (env.installBehavior n (get_allowed_versions n spec).2).newState n
              = some (get_allowed_versions n spec).2
          · rw [updateLoop_cons_install_match env n spec rest st hs hreq hr hw] at h
            simp at h
            rcases h with ⟨rfl, rfl⟩ | h
            · exact hs
            · exact ih (env.installBehavior n (get_allowed_versions n spec).2).newState h
          · rw [updateLoop_cons_install_warn env n spec rest st hs hreq hr hw] at h
            simp at h
            rcases h with ⟨rfl, rfl⟩ | h
            · exact hs
            · exact ih (env.installBehavior n (get_allowed_versions n spec).2).newState h

/-- When every entry is either in editable mode or already satisfied under
the starting state, the loop performs no install, completes, and leaves
the installed state unchanged. -/
theorem updateLoop_no_install (env : Env) (man : List (String × VersionSpec))
    (st : String → Option String)
    (h : ∀ p ∈ man, env.localSrcExists p.1 = true ∨
        requires_install (get_allowed_versions p.1 p.2).1 (st p.1) = false) :
    (updateLoop env man st).events.filter isInstallEvent = [] ∧
    (updateLoop env man st).outcome = .completed ∧
    (updateLoop env man st).finalState = st := by
  induction man generalizing st with
  | nil => simp [updateLoop]
  | cons p rest ih =>
    obtain ⟨n, spec⟩ := p
    have hrest := ih st (fun q hq => h q (List.mem_cons_of_mem _ hq))
    cases hs : env.localSrcExists n with
    | true =>
      rw [updateLoop_cons_src env n spec rest st hs]
      simpa [isInstallEvent] using hrest
    | false =>
      have hreq : requires_install (get_allowed_versions n spec).1 (st n) = false := by
        rcases h (n, spec) (List.mem_cons_self _ _) with h1 | h1
        · rw [hs] at h1; exact absurd h1 (by simp)
        · exact h1
      rw [updateLoop_cons_ok env n spec rest st hs hreq]
      simpa [isInstallEvent] using hrest

/-- The torch block only ever contributes torchInstall events. -/
theorem torchEvents_all (tp : TorchPhase) (e : Event) (h : e ∈ torchEvents tp) :
    ∃ b, e = Event.torchInstall b := by
  cases tp <;> simp [torchEvents] at h <;> exact ⟨_, h⟩

/-- update_modules either stops inside the torch block with no events, or
runs the manifest loop from the state the torch block leaves behind. -/
theorem update_modules_shape (env : Env) :
    ((update_modules env).events = [] ∧
     (update_modules env).outcome ≠ .completed ∧
     ∀ m, (update_modules env).outcome ≠ .failedExit1 m) ∨
    ((update_modules env).events =
        torchEvents (torch_phase env).1 ++
          (updateLoop env modules_to_check (torch_phase env).2).events ∧
     (update_modules env).outcome =
        liftOutcome (updateLoop env modules_to_check (torch_phase env).2).outcome) := by
  cases htp : torch_phase env with
  | mk tp st => cases tp <;> simp [update_modules, htp, torchEvents]

/-- A warning about a version that is still wrong after a successful
install does not stop the loop: the warning is emitted, the outcome is not
a failure at that module, and the entry after it in the manifest is still
considered. -/
theorem updateLoop_warn_continues (env : Env) (man : List (String × VersionSpec))
    (st : String → Option String) (m v : String)
    (hnodup : (man.map Prod.fst).Nodup)
    (hmem : Event.install m v ∈ (updateLoop env man st).events)
    (hnr : (env.installBehavior m v).raises = false)
    (hmis : (env.installBehavior m v).newState m ≠ some v) :
    Event.warnMismatch m v ∈ (updateLoop env man st).events ∧
    (updateLoop env man st).outcome ≠ .failedExit1 m ∧
    ∀ m', nextName man m = some m' → Event.considered m' ∈ (updateLoop env man st).events := by
  induction man generalizing st with
  | nil => simp [updateLoop] at hmem
  | cons p rest ih =>
    obtain ⟨n, spec⟩ := p
    obtain ⟨hn1, hn2⟩ : n ∉ rest.map Prod.fst ∧ (rest.map Prod.fst).Nodup := by
      simpa using hnodup
    cases hs : env.localSrcExists n with
    | true =>
      rw [updateLoop_cons_src env n spec rest st hs] at hmem ⊢
      simp only [List.mem_cons] at hmem
      rcases hmem with hmem | hmem | hmem
      · exact absurd hmem (by simp)
      · exact absurd hmem (by simp)
      · have hne : n ≠ m := fun he => hn1 (by
          rw [he]; exact updateLoop_install_mem env rest st m v hmem)
        obtain ⟨w, o, k⟩ := ih st hn2 hmem
        refine ⟨List.mem_cons_of_mem _ (List.mem_cons_of_mem _ w), o, ?_⟩
        intro m' hm'
        rw [show nextName ((n, spec) :: rest) m = nextName rest m by simp [nextName, hne]] at hm'
        exact List.mem_cons_of_mem _ (List.mem_cons_of_mem _ (k m' hm'))
    | false =>
      cases hreq : requires_install (get_allowed_versions n spec).1 (st n) with
      | false =>
        rw [updateLoop_cons_ok env n spec rest st hs hreq] at hmem ⊢
        simp only [List.mem_cons] at hmem
        rcases hmem with hmem | hmem
        · exact absurd hmem (by simp)
        · have hne : n ≠ m := fun he => hn1 (by
            rw [he]; exact updateLoop_install_mem env rest st m v hmem)
          obtain ⟨w, o, k⟩ := ih st hn2 hmem
          refine ⟨List.mem_cons_of_mem _ w, o, ?_⟩
          intro m' hm'
          rw [show nextName ((n, spec) :: rest) m = nextName rest m by
            simp [nextName, hne]] at hm'
          exact List.mem_cons_of_mem _ (k m' hm')
      | true =>
        cases hr : (env.installBehavior n (get_allowed_versions n spec).2).raises with
        | true =>
          rw [updateLoop_cons_raise env n spec rest st hs hreq hr] at hmem
          simp at hmem
          obtain ⟨rfl, rfl⟩ := hmem
          rw [hnr] at hr
          exact absurd hr (by simp)
        | false =>
          by_cases hw : (env.installBehavior n (get_allowed_versions n spec).2).newState n
              = some (get_allowed_versions n spec).2
          · rw [updateLoop_cons_install_match env n spec rest st hs hreq hr hw] at hmem ⊢
            simp only [List.mem_cons] at hmem
            rcases hmem with hmem | hmem | hmem
            · exact absurd hmem (by simp)
            · obtain ⟨rfl, rfl⟩ := by simpa using hmem
              exact absurd hw hmis
            · have hne : n ≠ m := fun he => hn1 (by
                rw [he]
                exact updateLoop_install_mem env rest
                  (env.installBehavior n (get_allowed_versions n spec).2).newState m v hmem)
              obtain ⟨w, o, k⟩ :=
                ih (env.installBehavior n (get_allowed_versions n spec).2).newState hn2 hmem
              refine ⟨List.mem_cons_of_mem _ (List.mem_cons_of_mem _ w), o, ?_⟩
              intro m' hm'
              rw [show nextName ((n, spec) :: rest) m = nextName rest m by
                simp [nextName, hne]] at hm'
              exact List.mem_cons_of_mem _ (List.mem_cons_of_mem _ (k m' hm'))
          · rw [updateLoop_cons_install_warn env n spec rest st hs hreq hr hw] at hmem ⊢
            simp only [List.mem_cons] at hmem
            rcases hmem with hmem | hmem | hmem | hmem
            · exact absurd hmem (by simp)
            · obtain ⟨rfl, rfl⟩ := by simpa using hmem
              refine ⟨List.mem_cons_of_mem _ (List.mem_cons_of_mem _ (List.mem_cons_self _ _)),
                ?_, ?_⟩
              · intro ho
                exact hn1 (updateLoop_failed_mem env rest
                  (env.installBehavior m (get_allowed_versions m spec).2).newState m ho)
              · intro m' hm'
                rw [show nextName ((m, spec) :: rest) m = rest.head?.map Prod.fst by
                  simp [nextName]] at hm'
                cases rest with
                | nil => simp at hm'
                | cons q rest2 =>
                  obtain ⟨n2, spec2⟩ := q
                  obtain rfl : n2 = m' := by simpa using hm'
                  exact List.mem_cons_of_mem _ (List.mem_cons_of_mem _
                    (List.mem_cons_of_mem _ (updateLoop_considered_head env n2 spec2 rest2
                      (env.installBehavior m (get_allowed_versions m spec).2).newState)))
            · exact absurd hmem (by simp)
            · have hne : n ≠ m := fun he => hn1 (by
                rw [he]
                exact updateLoop_install_mem env rest
                  (env.installBehavior n (get_allowed_versions n spec).2).newState m v hmem)
              obtain ⟨w, o, k⟩ :=
                ih (env.installBehavior n (get_allowed_versions n spec).2).newState hn2 hmem
              refine ⟨List.mem_cons_of_mem _ (List.mem_cons_of_mem _
                (List.mem_cons_of_mem _ w)), o, ?_⟩
              intro m' hm'
              rw [show nextName ((n, spec) :: rest) m = nextName rest m by
                simp [nextName, hne]] at hm'
              exact List.mem_cons_of_mem _ (List.mem_cons_of_mem _
                (List.mem_cons_of_mem _ (k m' hm')))

/-- A raised exception during an issued install is terminal: the loop
fails at that module and the remediation message is the last event. -/
theorem updateLoop_raise_halts (env : Env) (man : List (String × VersionSpec))
    (st : String → Option String) (m v : String)
    (hmem : Event.install m v ∈ (updateLoop env man st).events)
    (hraise : (env.installBehavior m v).raises = true) :
    (updateLoop env man st).outcome = .failedExit1 m ∧
    ∃ pre, (updateLoop env man st).events =
      pre ++ [Event.install m v, Event.printRemediation m] := by
  induction man generalizing st with
  | nil => simp [updateLoop] at hmem
  | cons p rest ih =>
    obtain ⟨n, spec⟩ := p
    cases hs : env.localSrcExists n with
    | true =>
      rw [updateLoop_cons_src env n spec rest st hs] at hmem ⊢
      simp only [List.mem_cons] at hmem
      rcases hmem with hmem | hmem | hmem
      · exact absurd hmem (by simp)
      · exact absurd hmem (by simp)
      · obtain ⟨ho, pre, hpre⟩ := ih st hmem
        exact ⟨ho, Event.considered n :: Event.skipEditable n :: pre, by simp [hpre]⟩
    | false =>
      cases hreq : requires_install (get_allowed_versions n spec).1 (st n) with
      | false =>
        rw [updateLoop_cons_ok env n spec rest st hs hreq] at hmem ⊢
        simp only [List.mem_cons] at hmem
        rcases hmem with hmem | hmem
        · exact absurd hmem (by simp)
        · obtain ⟨ho, pre, hpre⟩ := ih st hmem
          exact ⟨ho, Event.considered n :: pre, by simp [hpre]⟩
      | true =>
        cases hr : (env.installBehavior n (get_allowed_versions n spec).2).raises with
        | true =>
          rw [updateLoop_cons_raise env n spec rest st hs hreq hr] at hmem ⊢
          simp at hmem
          obtain ⟨rfl, rfl⟩ := hmem
          exact ⟨rfl, [Event.considered m], rfl⟩
        | false =>
          by_cases hw : (env.installBehavior n (get_allowed_versions n spec).2).newState n
              = some (get_allowed_versions n spec).2
          · rw [updateLoop_cons_install_match env n spec rest st hs hreq hr hw] at hmem ⊢
            simp only [List.mem_cons] at hmem
            rcases hmem with hmem | hmem | hmem
            · exact absurd hmem (by simp)
            · obtain ⟨rfl, rfl⟩ := by simpa using hmem
              simp [hraise] at hr
            · obtain ⟨ho, pre, hpre⟩ :=
                ih (env.installBehavior n (get_allowed_versions n spec).2).newState hmem
              exact ⟨ho, Event.considered n ::
                Event.install n (get_allowed_versions n spec).2 :: pre, by simp [hpre]⟩
          · rw [updateLoop_cons_install_warn env n spec rest st hs hreq hr hw] at hmem ⊢
            simp only [List.mem_cons] at hmem
            rcases hmem with hmem | hmem | hmem | hmem
            · exact absurd hmem (by simp)
            · obtain ⟨rfl, rfl⟩ := by simpa using hmem
              simp [hraise] at hr
            · exact absurd hmem (by simp)
            · obtain ⟨ho, pre, hpre⟩ :=
                ih (env.installBehavior n (get_allowed_versions n spec).2).newState hmem
              exact ⟨ho, Event.considered n ::
                Event.install n (get_allowed_versions n spec).2 ::
                Event.warnMismatch n (get_allowed_versions n spec).2 :: pre, by simp [hpre]⟩

/-! ### Structural lemmas about get_config -/

/-- get_config never touches the install status file. -/
theorem get_config_installStatus (pyYaml pyJson : ParseFun) (fs : FS) :
    (get_config pyYaml pyJson fs).fs.installStatus = fs.installStatus := by
  obtain ⟨l, c, j, i⟩ := fs
  cases l with
  | some lv =>
    simp only [get_config]
    cases pyYaml lv with
    | error e => rfl
    | ok o => cases o <;> rfl
  | none =>
    cases c with
    | some cv =>
      simp only [get_config]
      cases pyYaml cv with
      | error e => rfl
      | ok o => cases o <;> rfl
    | none =>
      cases j with
      | some jv =>
        simp only [get_config]
        cases pyJson jv with
        | error e => rfl
        | ok o => cases o <;> rfl
      | none => rfl

/-- Which content get_config parses and when it logs to stderr, phrased
through yamlSource. -/
theorem get_config_chr (pyYaml pyJson : ParseFun) (fs : FS) :
    (get_config pyYaml pyJson fs).config =
      (match yamlSource fs with
       | some s =>
         (match pyYaml s with
          | .ok (some cf) => cf
          | _ => { net := none })
       | none =>
         (match fs.configJson with
          | some s =>
            (match pyJson s with
             | .ok (some cf) => cf
             | _ => { net := none })
          | none => { net := none })) ∧
    (get_config pyYaml pyJson fs).stderrLogged =
      (match yamlSource fs with
       | some s => (match pyYaml s with | .error _ => true | _ => false)
       | none =>
         (match fs.configJson with
          | some s => (match pyJson s with | .error _ => true | _ => false)
          | none => false)) := by
  obtain ⟨l, c, j, i⟩ := fs
  cases l with
  | some lv =>
    simp only [get_config, yamlSource]
    cases pyYaml lv with
    | error e => exact ⟨rfl, rfl⟩
    | ok o => cases o <;> exact ⟨rfl, rfl⟩
  | none =>
    cases c with
    | some cv =>
      simp only [get_config, yamlSource]
      cases pyYaml cv with
      | error e => exact ⟨rfl, rfl⟩
      | ok o => cases o <;> exact ⟨rfl, rfl⟩
    | none =>
      cases j with
      | some jv =>
        simp only [get_config, yamlSource]
        cases pyJson jv with
        | error e => exact ⟨rfl, rfl⟩
        | ok o => cases o <;> exact ⟨rfl, rfl⟩
      | none => exact ⟨rfl, rfl⟩

/-- A single pinned version that the state already reports never requires
an install. -/
theorem requires_install_self (s : String) : requires_install [s] (some s) = false := by
  simp [requires_install, List.contains_cons]

/-! ### The claims -/

/-- Claim C1 (corrected), counterexample: in envPipFail the pip invocation
for rich reports exit status 1 (failure), yet the reconciler still
considers and installs the next manifest entry fastapi, the run does not
fail at rich, and the process exits with status 0 — not, as the claim
states, halting at rich with exit status 1.  The source discards the
return value of os.system, so a failing exit status is invisible to it. -/
theorem C1_counterexample :
    (envPipFail.installBehavior "rich" "12.6.0").exitStatus = 1 ∧
    Event.install "rich" "12.6.0" ∈ (update_modules envPipFail).events ∧
    Event.considered "fastapi" ∈ (update_modules envPipFail).events ∧
    Event.install "fastapi" "0.115.6" ∈ (update_modules envPipFail).events ∧
    (update_modules envPipFail).outcome ≠ .failedExit1 "rich" ∧
    runProcess envPipFail parseNever parseNever fsEmpty false = .exited 0 := by decide

/-- Claim C1 (corrected), amended: if an install action for some entry
raises an exception, reconciliation halts immediately at that entry — no
later event follows the install and its remediation message, and the
process exits with status 1.  (A package-manager exit status indicating
failure does not, by itself, halt reconciliation.) -/
theorem C1_halts_on_exception (env : Env) (m v : String)
    (hmem : Event.install m v ∈ (update_modules env).events)
    (hraise : (env.installBehavior m v).raises = true) :
    (update_modules env).outcome = .failedExit1 m ∧
    Event.printRemediation m ∈ (update_modules env).events ∧
    (∃ pre, (update_modules env).events =
      pre ++ [Event.install m v, Event.printRemediation m]) ∧
    ∀ (pyYaml pyJson : ParseFun) (fs : FS) (launchFlag : Bool),
      runProcess env pyYaml pyJson fs launchFlag = .exited 1 := by
  rcases update_modules_shape env with ⟨he, _, _⟩ | ⟨he, ho⟩
  · rw [he] at hmem
    simp at hmem
  · rw [he] at hmem
    rcases List.mem_append.mp hmem with h1 | h1
    · obtain ⟨b, hb⟩ := torchEvents_all _ _ h1
      simp at hb
    · obtain ⟨hout, pre, hpre⟩ :=
        updateLoop_raise_halts env modules_to_check (torch_phase env).2 m v h1 hraise
      have houtcome : (update_modules env).outcome = .failedExit1 m := by
        rw [ho, hout]
        rfl
      refine ⟨houtcome, ?_, ?_, ?_⟩
      · rw [he, hpre]
        simp
      · exact ⟨torchEvents (torch_phase env).1 ++ pre, by rw [he, hpre, List.append_assoc]⟩
      · intro pyYaml pyJson fs launchFlag
        unfold runProcess
        rw [houtcome]

theorem C1_witness :
    (update_modules envRaise).outcome = .failedExit1 "rich" ∧
    runProcess envRaise parseNever parseNever fsEmpty false = .exited 1 :=
  ⟨(C1_halts_on_exception envRaise "rich" "12.6.0" (by decide) (by decide)).1,
   (C1_halts_on_exception envRaise "rich" "12.6.0" (by decide) (by decide)).2.2.2
     parseNever parseNever fsEmpty false⟩

/-- Claim C2 (confirmed): with a present, current, non-CPU torch and an
environment that already reports exactly the pinned version of every
manifest entry, a reconciliation run performs zero install actions,
completes, and leaves the installed state untouched. -/
theorem C2_idempotent (env : Env) (ts : String) (tv : List Nat)
    (ht1 : env.installedVersion "torch" = some ts)
    (ht2 : version_str_to_tuple ts = some tv)
    (ht3 : pyTupleLt tv [2, 7] = false)
    (ht4 : ts.data.contains '+' = true)
    (hsat : ∀ p ∈ modules_to_check, env.installedVersion p.1 = versionSpecPin p.2) :
    (update_modules env).events.filter isInstallEvent = [] ∧
    (update_modules env).outcome = .completed ∧
    (update_modules env).finalState = env.installedVersion := by
  have hsat2 : ∀ p ∈ modules_to_check, env.localSrcExists p.1 = true ∨
      requires_install (get_allowed_versions p.1 p.2).1 (env.installedVersion p.1) = false := by
    intro p hp
    right
    obtain ⟨s, hs2⟩ : ∃ s, p.2 = VersionSpec.str s := by
      fin_cases hp <;> exact ⟨_, rfl⟩
    rw [hsat p hp, hs2]
    simpa [get_allowed_versions, versionSpecPin] using requires_install_self s
  have hloop := updateLoop_no_install env modules_to_check env.installedVersion hsat2
  have ht4m : '+' ∈ ts.data := by simpa using ht4
  have htp : torch_phase env = (.noAction, env.installedVersion) := by
    simp [torch_phase, ht1, ht2, ht3, ht4m]
  refine ⟨?_, ?_, ?_⟩
  · simp [update_modules, htp, torchEvents, hloop.1]
  · simp [update_modules, htp, liftOutcome, hloop.2.1]
  · simp [update_modules, htp, hloop.2.2]

theorem C2_witness :
    (update_modules envSat).events.filter isInstallEvent = [] ∧
    (update_modules envSat).outcome = .completed ∧
    (update_modules envSat).finalState = envSat.installedVersion :=
  C2_idempotent envSat "2.7.0+cu118" [2, 7, 0] (by decide) (by decide) (by decide)
    (by decide) (by decide)

/-- Claim C3 (confirmed): a manifest entry whose package has a matching
src/<name> directory is never the subject of an install action, whatever
the installed state says about it. -/
theorem C3_editable_never_installed (env : Env) (m : String)
    (hm : m ∈ modules_to_check.map Prod.fst)
    (hl : env.localSrcExists m = true) :
    ∀ v, Event.install m v ∉ (update_modules env).events := by
  intro v hmem
  rcases update_modules_shape env with ⟨he, _, _⟩ | ⟨he, _⟩
  · rw [he] at hmem
    simp at hmem
  · rw [he] at hmem
    rcases List.mem_append.mp hmem with h1 | h1
    · obtain ⟨b, hb⟩ := torchEvents_all _ _ h1
      simp at hb
    · have hfalse := updateLoop_install_not_editable env modules_to_check
        (torch_phase env).2 m v h1
      rw [hl] at hfalse
      simp at hfalse

theorem C3_witness :
    envEditable.localSrcExists "rich" = true ∧
    Event.install "rich" "12.6.0" ∉ (update_modules envEditable).events :=
  ⟨by decide, C3_editable_never_installed envEditable "rich" (by decide) (by decide) "12.6.0"⟩

/-- Claim C4 (corrected), counterexample: with both config files present,
the config that get_config returns is the parse of the legacy file
content, not of the canonical file content — the shutil.move overwrites
the canonical file with the legacy one before reading. -/
theorem C4_counterexample :
    fsBoth.legacyYaml = some "L" ∧
    fsBoth.canonicalYaml = some "C" ∧
    parseBoth "C" = .ok (some configOfCanonical) ∧
    (get_config parseBoth parseNever fsBoth).config = configOfLegacy ∧
    (get_config parseBoth parseNever fsBoth).config ≠ configOfCanonical :=
  ⟨rfl, rfl, rfl, by decide, by decide⟩

/-- Claim C4 (corrected), amended: if both the legacy and the canonical
config paths exist, the legacy file is moved onto the canonical path
(overwriting the canonical config), the file read is the canonical path
now holding the legacy content, the legacy path no longer exists, and the
two configs are never merged — the result is exactly the parse of the
legacy content. -/
theorem C4_legacy_overwrites (pyYaml pyJson : ParseFun) (fs : FS) (l c : String)
    (hl : fs.legacyYaml = some l) (hc : fs.canonicalYaml = some c) :
    (get_config pyYaml pyJson fs).fs.legacyYaml = none ∧
    (get_config pyYaml pyJson fs).fs.canonicalYaml = some l ∧
    (get_config pyYaml pyJson fs).config =
      (match pyYaml l with
       | .ok (some cf) => cf
       | _ => { net := none }) := by
  obtain ⟨l0, c0, j, i⟩ := fs
  obtain rfl : l0 = some l := hl
  simp only [get_config]
  cases pyYaml l with
  | error e => exact ⟨rfl, rfl, rfl⟩
  | ok o => cases o <;> exact ⟨rfl, rfl, rfl⟩

theorem C4_witness :
    (get_config parseBoth parseNever fsBoth).fs.legacyYaml = none ∧
    (get_config parseBoth parseNever fsBoth).fs.canonicalYaml = some "L" ∧
    (get_config parseBoth parseNever fsBoth).config =
      (match parseBoth "L" with
       | .ok (some cf) => cf
       | _ => { net := none }) :=
  C4_legacy_overwrites parseBoth parseNever fsBoth "L" "C" rfl rfl

/-- Claim C5 (confirmed): when no config file exists, or the selected file
parses to None or raises, the launcher uses the empty config and the
default bind parameters 127.0.0.1 and 9000; a parser exception is logged
to stderr and launching proceeds. -/
theorem C5_defaults (pyYaml pyJson : ParseFun) (fs : FS)
    (h : (yamlSource fs = none ∧ fs.configJson = none)
       ∨ (∃ s, yamlSource fs = some s ∧ (pyYaml s = .error () ∨ pyYaml s = .ok none))
       ∨ (yamlSource fs = none ∧
           ∃ s, fs.configJson = some s ∧ (pyJson s = .error () ∨ pyJson s = .ok none))) :
    (launch_uvicorn pyYaml pyJson fs).config = { net := none } ∧
    (launch_uvicorn pyYaml pyJson fs).bind = defaultBind ∧
    (((∃ s, yamlSource fs = some s ∧ pyYaml s = .error ()) ∨
      (yamlSource fs = none ∧ ∃ s, fs.configJson = some s ∧ pyJson s = .error ())) →
      (launch_uvicorn pyYaml pyJson fs).stderrLogged = true) := by
  obtain ⟨hc, hs⟩ := get_config_chr pyYaml pyJson fs
  have hcfg : (get_config pyYaml pyJson fs).config = { net := none } := by
    rcases h with ⟨h1, h2⟩ | ⟨s, h1, h2⟩ | ⟨h1, s, h2, h3⟩
    · rw [hc]
      simp [h1, h2]
    · rw [hc]
      rcases h2 with h2 | h2 <;> simp [h1, h2]
    · rw [hc]
      rcases h3 with h3 | h3 <;> simp [h1, h2, h3]
  refine ⟨hcfg, ?_, ?_⟩
  · show deriveBindParams (get_config pyYaml pyJson fs).config = defaultBind
    rw [hcfg]
    rfl
  · intro herr
    show (get_config pyYaml pyJson fs).stderrLogged = true
    rw [hs]
    rcases herr with ⟨s, h1, h2⟩ | ⟨h1, s, h2, h3⟩
    · simp [h1, h2]
    · simp [h1, h2, h3]

theorem C5_witness :
    (launch_uvicorn parseNever parseNever fsC5).config = { net := none } ∧
    (launch_uvicorn parseNever parseNever fsC5).bind = defaultBind ∧
    (launch_uvicorn parseNever parseNever fsC5).stderrLogged = true := by
  have h := C5_defaults parseNever parseNever fsC5
    (Or.inr (Or.inl ⟨"bad", rfl, Or.inl rfl⟩))
  exact ⟨h.1, h.2.1, h.2.2 (Or.inl ⟨"bad", rfl, rfl⟩)⟩

/-- Claim C6 (confirmed): for the config net = {listen_port: 8080,
listen_to_network: true} with no bind_ip key, the launcher derives the
wildcard bind address 0.0.0.0 and port 8080 — not the defaults. -/
theorem C6_network_bind :
    (launch_uvicorn parse6 parseNever fs6).config = config6 ∧
    (launch_uvicorn parse6 parseNever fs6).bind =
      { bind_ip := .str "0.0.0.0", listen_port := .int 8080 } ∧
    (launch_uvicorn parse6 parseNever fs6).bind ≠ defaultBind := by decide

/-- Claim C7 (corrected), counterexample: a pip invocation whose exit
status indicates failure does not make the process exit with status 1 —
the run below contains a failing install for rich yet the process exits
with status 0.  (The other half of the claim, that no code other than 0
and 1 is produced, does hold; see the amended theorem.) -/
theorem C7_counterexample :
    (envPipFail.installBehavior "rich" "12.6.0").exitStatus = 1 ∧
    Event.install "rich" "12.6.0" ∈ (update_modules envPipFail).events ∧
    runProcess envPipFail parseNever parseNever fsEmpty false = .exited 0 ∧
    runProcess envPipFail parseNever parseNever fsEmpty false ≠ .exited 1 := by decide

/-- Claim C7 (corrected), amended: every exit code the process produces is
0 or 1, and a reconciliation that fails (an install action raising an
exception) always exits with status 1.  A failing package-manager exit
status alone does not produce exit status 1. -/
theorem C7_exit_codes (env : Env) (pyYaml pyJson : ParseFun) (fs : FS) (launchFlag : Bool) :
    (∀ c, runProcess env pyYaml pyJson fs launchFlag = .exited c → c = 0 ∨ c = 1) ∧
    ∀ k, (update_modules env).outcome = .failedExit1 k →
      runProcess env pyYaml pyJson fs launchFlag = .exited 1 := by
  constructor
  · intro c hc
    unfold runProcess at hc
    cases ho : (update_modules env).outcome with
    | completed =>
      rw [ho] at hc
      cases launchFlag with
      | false =>
        simp at hc
        omega
      | true => simp at hc
    | failedExit1 k =>
      rw [ho] at hc
      simp at hc
      omega
    | earlyExit0 =>
      rw [ho] at hc
      simp at hc
      omega
    | uncaughtExit1 =>
      rw [ho] at hc
      simp at hc
      omega
  · intro k hk
    unfold runProcess
    rw [hk]

theorem C7_witness :
    ((0 : Nat) = 0 ∨ (0 : Nat) = 1) ∧
    runProcess envRaise parseNever parseNever fsEmpty false = .exited 1 :=
  ⟨(C7_exit_codes envPipFail parseNever parseNever fsEmpty false).1 0 (by decide),
   (C7_exit_codes envRaise parseNever parseNever fsEmpty false).2 "rich" (by decide)⟩

/-- Claim C8 (confirmed): when an issued install does not raise but the
re-queried version still differs from the target, the loop emits the
warning, the run does not fail at that module, and the next manifest entry
is still considered. -/
theorem C8_warn_nonfatal (env : Env) (m v m' : String)
    (hmem : Event.install m v ∈ (update_modules env).events)
    (hnr : (env.installBehavior m v).raises = false)
    (hmis : (env.installBehavior m v).newState m ≠ some v) :
    Event.warnMismatch m v ∈ (update_modules env).events ∧
    (update_modules env).outcome ≠ .failedExit1 m ∧
    (nextName modules_to_check m = some m' →
      Event.considered m' ∈ (update_modules env).events) := by
  rcases update_modules_shape env with ⟨he, _, _⟩ | ⟨he, ho⟩
  · rw [he] at hmem
    simp at hmem
  · rw [he] at hmem
    rcases List.mem_append.mp hmem with h1 | h1
    · obtain ⟨b, hb⟩ := torchEvents_all _ _ h1
      simp at hb
    · have hnodup : (modules_to_check.map Prod.fst).Nodup := by decide
      obtain ⟨w, o, k⟩ := updateLoop_warn_continues env modules_to_check
        (torch_phase env).2 m v hnodup h1 hnr hmis
      refine ⟨?_, ?_, ?_⟩
      · rw [he]
        exact List.mem_append_right _ w
      · intro hco
        rw [ho] at hco
        cases hout : (updateLoop env modules_to_check (torch_phase env).2).outcome with
        | completed =>
          rw [hout] at hco
          simp [liftOutcome] at hco
        | failedExit1 kk =>
          rw [hout] at hco
          simp [liftOutcome] at hco
          rw [hco] at hout
          exact o hout
      · intro hm'
        rw [he]
        exact List.mem_append_right _ (k m' hm')

theorem C8_witness :
    Event.warnMismatch "rich" "12.6.0" ∈ (update_modules envPipFail).events ∧
    (update_modules envPipFail).outcome ≠ .failedExit1 "rich" ∧
    Event.considered "fastapi" ∈ (update_modules envPipFail).events := by
  have h := C8_warn_nonfatal envPipFail "rich" "12.6.0" "fastapi" (by decide) (by decide)
    (by decide)
  exact ⟨h.1, h.2.1, h.2.2 (by decide)⟩

/-- Claim C9 (confirmed): whenever the process reaches the launch phase,
the install status file afterwards is exactly its prior content with the
two checkpoint lines appended — prior content preserved, nothing
truncated. -/
theorem C9_marker_appended (env : Env) (pyYaml pyJson : ParseFun) (fs : FS)
    (lr : LaunchResult)
    (h : runProcess env pyYaml pyJson fs true = .serving lr) :
    lr.fs.installStatus = fs.installStatus ++ checkpointLines := by
  unfold runProcess at h
  cases ho : (update_modules env).outcome with
  | completed =>
    rw [ho] at h
    simp at h
    subst h
    simp [launch_uvicorn, get_config_installStatus]
  | failedExit1 k =>
    rw [ho] at h
    simp at h
  | earlyExit0 =>
    rw [ho] at h
    simp at h
  | uncaughtExit1 =>
    rw [ho] at h
    simp at h

theorem C9_witness :
    (launch_uvicorn parseNever parseNever fsPrior).fs.installStatus =
      fsPrior.installStatus ++ checkpointLines :=
  C9_marker_appended envSat parseNever parseNever fsPrior
    (launch_uvicorn parseNever parseNever fsPrior) (by decide)

/-- Claim C10 (confirmed): whenever the net section is missing, or its
listen_to_network value is missing or not equal (in the Python sense) to
True, the derived bind address is the loopback 127.0.0.1, even when a
bind_ip value is present — bind_ip is consulted only under
listen_to_network == True. -/
theorem C10_loopback_unless_enabled (cfg : Config)
    (h : listenEnabled cfg = false) :
    (deriveBindParams cfg).bind_ip = .str "127.0.0.1" := by
  obtain ⟨optNet⟩ := cfg
  cases optNet with
  | none => rfl
  | some net =>
    obtain ⟨lp, ltn, bip⟩ := net
    cases ltn with
    | none => rfl
    | some v =>
      have hv : pyEq v (.bool true) = false := by simpa [listenEnabled] using h
      simp [deriveBindParams, hv]

theorem C10_witness :
    listenEnabled config10 = false ∧
    (match config10.net with
     | some net => net.bind_ip
     | none => none) = some (.str "1.2.3.4") ∧
    (deriveBindParams config10).bind_ip = .str "127.0.0.1" :=
  ⟨by decide, by decide, C10_loopback_unless_enabled config10 (by decide)⟩

end CheckModules
